import Mathlib

/-!
Verification development for the JobMatchEngine résumé-parsing and
job-matching core (`app/utils/section_extractor.py`, `app/analyzers/matcher.py`,
`app/models.py`).

Python strings are modelled as `List Char`; Python floats arising from the
ATS-score arithmetic are modelled as `ℚ` (exact arithmetic; the score terms
are small rationals).  Python regular expressions used by the source are
modelled by hand-written matchers that implement the leftmost, greedy,
backtracking semantics of each concrete pattern.  Python `set` objects have
an unspecified iteration order; they are modelled as `Finset`, and every
place the source calls `list(someSet)` is parameterised by an enumeration
function `enum : Finset Str → List Str` standing for CPython's
(hash-dependent) iteration order.
-/

/-- Python `str`, modelled as its character sequence. -/
abbrev Str := List Char

/-- Python whitespace, as used by `str.strip()`, `str.split()` and `\s`
(ASCII portion). -/
def pyIsSpace (c : Char) : Bool :=
  c = ' ' || c = '\t' || c = '\n' || c = '\r' || c = '\x0b' || c = '\x0c'

/-- Python `str.strip()` (no argument): drop whitespace at both ends. -/
def pyStrip (s : Str) : Str :=
  ((s.dropWhile pyIsSpace).reverse.dropWhile pyIsSpace).reverse

/-- Python `str.split(sep)` for a one-character separator: keeps empty
pieces, always returns at least one piece. -/
def splitOnChar (sep : Char) : Str → List Str
  | [] => [[]]
  | c :: rest =>
    if c = sep then [] :: splitOnChar sep rest
    else
      match splitOnChar sep rest with
      | [] => [[c]]
      | l :: ls => (c :: l) :: ls

/-- Python `text.split("\n")`. -/
def splitOnNl (s : Str) : List Str := splitOnChar '\n' s

/-- Python `"\n".join(lines)`. -/
def joinNl : List Str → Str
  | [] => []
  | [l] => l
  | l :: ls => l ++ '\n' :: joinNl ls

/-- Worker for `splitWs`. -/
def splitWsAux : Str → Str → List Str
  | [], acc => if acc.isEmpty then [] else [acc.reverse]
  | c :: rest, acc =>
    if pyIsSpace c then
      if acc.isEmpty then splitWsAux rest [] else acc.reverse :: splitWsAux rest []
    else splitWsAux rest (c :: acc)

/-- Python `str.split()` (no argument): split on whitespace runs, dropping
empty tokens. -/
def splitWs (s : Str) : List Str := splitWsAux s []

/-- Python `str.lower()` on the character ranges relevant to this code base
(ASCII letters and the Cyrillic letters appearing in the source's
patterns). -/
def pyLowerChar (c : Char) : Char :=
  if 'A' ≤ c ∧ c ≤ 'Z' then Char.ofNat (c.toNat + 32)
  else if 'А' ≤ c ∧ c ≤ 'Я' then Char.ofNat (c.toNat + 32)
  else if c = 'Ё' then 'ё'
  else c

/-- Python `str.lower()`. -/
def pyLower (s : Str) : Str := s.map pyLowerChar

/-- Python substring test `needle in hay`. -/
def isSubstr (n : Str) : Str → Bool
  | [] => n.isEmpty
  | c :: rest => n.isPrefixOf (c :: rest) || isSubstr n rest

/-- Word character for the regex `\b` / `\w` classes (ASCII alphanumerics,
underscore, and Cyrillic letters — Python's `re` treats Unicode letters as
word characters). -/
def isWordChar (c : Char) : Bool :=
  c.isAlphanum || c = '_' || ('а' ≤ c && c ≤ 'я') || ('А' ≤ c && c ≤ 'Я') ||
    c = 'ё' || c = 'Ё'

/-- Wordness of an optional character (`none` = out-of-string, non-word). -/
def wordOpt : Option Char → Bool
  | none => false
  | some c => isWordChar c

/-- Does the (stripped) line start with one of the plain bullet markers
`-`, `•`, `*`?  (`line.startswith(('-', '•', '*'))`). -/
def startsWithBulletChar : Str → Bool
  | c :: _ => c = '-' || c = '•' || c = '*'
  | [] => false

/-- `re.match(r'^\d+[.)]', line)`: one or more digits then `.` or `)`. -/
def matchNumMarker (s : Str) : Bool :=
  let ds := s.takeWhile Char.isDigit
  !ds.isEmpty &&
    (match s.dropWhile Char.isDigit with
     | c :: _ => c = '.' || c = ')'
     | [] => false)

/-- A bullet line in the experience segmenter/parser:
`line.startswith(('-', '•', '*')) or re.match(r'^\d+[.)]', line)`. -/
def isBulletLine (s : Str) : Bool := startsWithBulletChar s || matchNumMarker s

/-- `re.sub(r"^[-•*]\s*", "", s)`. -/
def subLeadingBullet : Str → Str
  | c :: rest => if c = '-' || c = '•' || c = '*' then rest.dropWhile pyIsSpace else c :: rest
  | [] => []

/-- `re.sub(r"^\d+[.)]\s*", "", s)`. -/
def subLeadingNum (s : Str) : Str :=
  let ds := s.takeWhile Char.isDigit
  if ds.isEmpty then s
  else
    match s.dropWhile Char.isDigit with
    | c :: rest => if c = '.' || c = ')' then rest.dropWhile pyIsSpace else s
    | [] => s

/-- Match of `\b(19|20)\d{2}\b` anchored at the current position, given the
previous character; returns the matched year and the remainder. -/
def tryYearAt (prev : Option Char) : Str → Option (Str × Str)
  | c1 :: c2 :: c3 :: c4 :: rest =>
    if !wordOpt prev && ((c1 = '1' && c2 = '9') || (c1 = '2' && c2 = '0')) &&
        c3.isDigit && c4.isDigit && !wordOpt rest.head? then
      some ([c1, c2, c3, c4], rest)
    else none
  | _ => none

/-- `re.search(r'\b(19|20)\d{2}\b', s)` as a Boolean. -/
def hasYearAux : Option Char → Str → Bool
  | _, [] => false
  | prev, c :: rest =>
    (tryYearAt prev (c :: rest)).isSome || hasYearAux (some c) rest

/-- Does the string contain a 4-digit year token? -/
def hasYear (s : Str) : Bool := hasYearAux none s

/-- Dash characters of the date patterns: `[-–—]`. -/
def isDashChar (c : Char) : Bool := c = '-' || c = '–' || c = '—'

/-- The optional range extension `(\s*[-–—]\s*(\b(19|20)\d{2}\b|Present|Current))?`
of the experience date pattern (case-insensitive), anchored at the start of
`s`; returns the consumed text and the remainder when it matches. -/
def tryRangeExt (s : Str) : Option (Str × Str) :=
  let ws1 := s.takeWhile pyIsSpace
  match s.dropWhile pyIsSpace with
  | [] => none
  | d :: rest1 =>
    if isDashChar d then
      let ws2 := rest1.takeWhile pyIsSpace
      let rest2 := rest1.dropWhile pyIsSpace
      let prevc : Char := if ws2.isEmpty then d else ' '
      match tryYearAt (some prevc) rest2 with
      | some (y, rest3) => some (ws1 ++ d :: (ws2 ++ y), rest3)
      | none =>
        if ("present".data).isPrefixOf (pyLower rest2) then
          some (ws1 ++ d :: (ws2 ++ rest2.take 7), rest2.drop 7)
        else if ("current".data).isPrefixOf (pyLower rest2) then
          some (ws1 ++ d :: (ws2 ++ rest2.take 7), rest2.drop 7)
        else none
    else none

/-- A match of the full experience date pattern
`\b(19|20)\d{2}\b(\s*[-–—]\s*(\b(19|20)\d{2}\b|Present|Current))?`
anchored at the current position. -/
def tryDateAt (prev : Option Char) (s : Str) : Option (Str × Str) :=
  match tryYearAt prev s with
  | none => none
  | some (y, rest) =>
    match tryRangeExt rest with
    | some (e, rest2) => some (y ++ e, rest2)
    | none => some (y, rest)

/-- Leftmost match (`re.search(...).group(0)`) of the experience date
pattern. -/
def findDateAux : Option Char → Str → Option Str
  | _, [] => none
  | prev, c :: rest =>
    match tryDateAt prev (c :: rest) with
    | some (m, _) => some m
    | none => findDateAux (some c) rest

/-- `re.search` for the experience date pattern. -/
def findDate (s : Str) : Option Str := findDateAux none s

/-- `re.sub(<experience date pattern>, "", s)`: remove every
(non-overlapping, leftmost-first) match.  The fuel argument is the input
length; every match consumes at least one character. -/
def removeDatesAux : Nat → Option Char → Str → Str
  | _, _, [] => []
  | 0, _, s => s
  | Nat.succ fuel, prev, c :: rest =>
    match tryDateAt prev (c :: rest) with
    | some (m, rest2) => removeDatesAux fuel m.getLast? rest2
    | none => c :: removeDatesAux fuel (some c) rest

/-- Remove all experience-date matches from a line. -/
def removeDates (s : Str) : Str := removeDatesAux s.length none s

/-! ## Data model (`app/models.py`) -/

/-- `ContactInfo` (pydantic model): all fields optional. -/
structure ContactInfo where
  name : Option Str
  email : Option Str
  phone : Option Str
  location : Option Str
  linkedin : Option Str
  github : Option Str
deriving DecidableEq

/-- `Experience` (pydantic model). -/
structure Experience where
  title : Str
  company : Str
  dates : Str
  location : Option Str
  bullets : List Str
  raw_text : Str
deriving DecidableEq

/-- `Education` (pydantic model). -/
structure Education where
  degree : Option Str
  institution : Str
  dates : Option Str
  location : Option Str
  details : Option Str
deriving DecidableEq

/-- `ParsedResume` (pydantic model). -/
structure ParsedResume where
  contact : ContactInfo
  summary : Option Str
  experience : List Experience
  skills : List Str
  education : List Education
  certifications : List Str
  languages : List Str
  language : Str
  raw_text : Str
deriving DecidableEq

/-- `JobPosting` (pydantic model). -/
structure JobPosting where
  title : Str
  company : Option Str
  location : Option Str
  description : Str
  requirements : List Str
  responsibilities : List Str
  keywords : List Str
  must_have_keywords : List Str
  nice_to_have_keywords : List Str
  language : Str
  raw_text : Str
deriving DecidableEq

/-- `MatchAnalysis` (pydantic model).  `ats_score` is a float in the source,
modelled as `ℚ`. -/
structure MatchAnalysis where
  ats_score : ℚ
  keyword_overlap : List Str
  missing_keywords : List Str
  recommendations : List Str
deriving DecidableEq

/-! ## Section locator (`SectionExtractor.SECTION_PATTERNS`, `_extract_section`) -/

/-- `SECTION_PATTERNS`: for each section id, the list of regexes, each an
anchored case-insensitive alternation of literals
(`r"(?i)^(alt1|alt2|...)"`).  `re.match` of such a pattern holds iff some
alternative is a prefix of the lowered line. -/
def SECTION_PATTERNS : List (String × List (List Str)) :=
  [("summary",
     [["summary".data, "profile".data, "objective".data, "about".data,
       "резюме".data, "профиль".data, "о себе".data],
      ["professional summary".data, "executive summary".data]]),
   ("experience",
     [["experience".data, "work experience".data, "employment".data,
       "work history".data, "опыт работы".data, "трудовой опыт".data,
       "места работы".data],
      ["professional experience".data, "career history".data]]),
   ("skills",
     [["skills".data, "technical skills".data, "core competencies".data,
       "навыки".data, "компетенции".data, "технические навыки".data],
      ["key skills".data, "professional skills".data]]),
   ("education",
     [["education".data, "academic background".data, "qualifications".data,
       "образование".data, "квалификация".data],
      ["educational background".data, "academic qualifications".data]]),
   ("contact",
     [["contact".data, "contact information".data, "personal information".data,
       "контакты".data, "контактная информация".data]])]

/-- Does `line` match one of the patterns of section `name`
(`re.match(pattern, line)` over `SECTION_PATTERNS[name]`)? -/
def lineIsHeaderOf (name : String) (line : Str) : Bool :=
  ((SECTION_PATTERNS.lookup name).getD []).any fun g =>
    g.any fun a => a.isPrefixOf (pyLower line)

/-- Does `line` match a pattern of some section other than `name`?  (the
termination test of `_extract_section`). -/
def lineIsOtherHeader (name : String) (line : Str) : Bool :=
  SECTION_PATTERNS.any fun e =>
    e.1 ≠ name && e.2.any fun g => g.any fun a => a.isPrefixOf (pyLower line)

/-- `SectionExtractor._extract_section`: find the first line matching a
pattern of the section (on the stripped line); the section then runs until
the first later non-blank line matching a different section's pattern, or to
the end of the text. -/
def extractSection (text : Str) (name : String) : Option Str :=
  let lines := splitOnNl text
  match lines.findIdx? (fun l => lineIsHeaderOf name (pyStrip l)) with
  | none => none
  | some i =>
    let endIdx :=
      match (lines.drop (i + 1)).findIdx?
          (fun l => !(pyStrip l).isEmpty && lineIsOtherHeader name (pyStrip l)) with
      | none => lines.length
      | some k => i + 1 + k
    some (joinNl ((lines.drop i).take (endIdx - i)))

/-! ## Skills extractor (`SectionExtractor.extract_skills`) -/

/-- `list(dict.fromkeys(skills))`: deduplicate by exact key equality while
keeping first-seen order (worker carrying the keys seen so far). -/
def dedupAux : List Str → List Str → List Str
  | [], _ => []
  | x :: xs, seen =>
    if seen.contains x then dedupAux xs seen else x :: dedupAux xs (x :: seen)

/-- `list(dict.fromkeys(skills))`. -/
def dedupKeepFirst (l : List Str) : List Str := dedupAux l []

/-- Per-line token extraction of `extract_skills`: strip, drop blanks,
remove bullet markers, then split on comma if present, else on pipe if
present, else keep the whole line. -/
def skillsLineTokens (line : Str) : List Str :=
  let l1 := pyStrip line
  if l1.isEmpty then []
  else
    let l2 := subLeadingNum (subLeadingBullet l1)
    if l2.contains ',' then (splitOnChar ',' l2).map pyStrip
    else if l2.contains '|' then (splitOnChar '|' l2).map pyStrip
    else if !l2.isEmpty then [l2] else []

/-- `SectionExtractor.extract_skills`. -/
def extractSkills (text : Str) : List Str :=
  match extractSection text "skills" with
  | none => []
  | some sec =>
    let lines := (splitOnNl sec).drop 1
    let skills := lines.flatMap skillsLineTokens
    let cleaned := (skills.filter (fun s => !(pyStrip s).isEmpty)).map pyStrip
    dedupKeepFirst cleaned

/-! ## Experience segmenter (`SectionExtractor._split_experience_entries`) -/

/-- Alternatives of the leading-line re-match
`r"(?i)^(experience|work experience|employment|work history|опыт работы)"`
used by `_split_experience_entries` (note: a strict subset of the
experience entries of `SECTION_PATTERNS`). -/
def expSkipAlts : List Str :=
  ["experience".data, "work experience".data, "employment".data,
   "work history".data, "опыт работы".data]

/-- Does the (stripped) leading line match the skip pattern of
`_split_experience_entries`? -/
def matchesExpSkip (line : Str) : Bool :=
  expSkipAlts.any fun a => a.isPrefixOf (pyLower line)

/-- The line-classification loop of `_split_experience_entries`
(arguments: remaining lines, accumulated entries, current buffer).
Original (unstripped) lines are buffered, as in the source. -/
def expLoop : List Str → List Str → List Str → List Str
  | [], entries, current =>
    if current = [] then entries else entries ++ [joinNl current]
  | line :: rest, entries, current =>
    let ls := pyStrip line
    if ls = [] then
      if current = [] then expLoop rest entries []
      else expLoop rest (entries ++ [joinNl current]) []
    else
      let isB := isBulletLine ls
      let hasD := hasYear ls
      if current ≠ [] ∧ current.any (fun l => startsWithBulletChar (pyStrip l)) then
        expLoop rest entries (current ++ [line])
      else if isB then expLoop rest entries (current ++ [line])
      else if current.length < 3 then expLoop rest entries (current ++ [line])
      else if !hasD ∧ !isB ∧ 3 < ls.length then
        expLoop rest (if current = [] then entries else entries ++ [joinNl current]) [line]
      else expLoop rest entries (current ++ [line])

/-- `SectionExtractor._split_experience_entries`. -/
def splitExperienceEntries (sectionText : Str) : List Str :=
  let lines := splitOnNl sectionText
  let lines2 :=
    match lines with
    | l :: rest => if matchesExpSkip (pyStrip l) then rest else lines
    | [] => lines
  expLoop lines2 [] []

/-! ## Experience entry parser (`SectionExtractor._parse_experience_entry`) -/

/-- Split the (stripped, non-blank) lines of an entry into header lines and
bullet lines: a non-bullet line counts as header only while no bullet line
has been seen yet. -/
def sepHB : List Str → List Str → List Str → List Str × List Str
  | [], hs, bs => (hs, bs)
  | l :: rest, hs, bs =>
    if isBulletLine l then sepHB rest hs (bs ++ [l])
    else if bs = [] then sepHB rest (hs ++ [l]) bs
    else sepHB rest hs (bs ++ [l])

/-- The header classification loop of `_parse_experience_entry`
(state: `title`, `company`, `dates`; `i` is the `enumerate` index). -/
def classifyHeader : List Str → Nat → Str → Str → Str → Str × Str × Str
  | [], _, t, c, d => (t, c, d)
  | line :: rest, i, t, c, d =>
    let hasD := hasYear line
    if i = 0 ∧ !hasD then classifyHeader rest (i + 1) line c d
    else if i = 1 ∧ !hasD then classifyHeader rest (i + 1) t line d
    else if hasD = true then
      let d2 := match findDate line with
        | some m => pyStrip m
        | none => d
      let before := pyStrip (removeDates line)
      let c2 := if before ≠ [] ∧ c = [] then before else c
      classifyHeader rest (i + 1) t c2 d2
    else if t = [] ∧ c = [] then classifyHeader rest (i + 1) line c d
    else if t ≠ [] ∧ c = [] then classifyHeader rest (i + 1) t line d
    else classifyHeader rest (i + 1) t c d

/-- `SectionExtractor._parse_experience_entry`. -/
def parseExperienceEntry (entryText : Str) : Option Experience :=
  let lines := ((splitOnNl entryText).map pyStrip).filter (fun l => !l.isEmpty)
  if lines = [] then none
  else
    let hb := sepHB lines [] []
    let tcd := classifyHeader hb.1 0 [] [] []
    let bullets := hb.2.filterMap fun l =>
      let cleaned := subLeadingNum (subLeadingBullet l)
      if pyStrip cleaned = [] then none else some (pyStrip cleaned)
    some { title := if tcd.1 = [] then "Unknown".data else tcd.1,
           company := if tcd.2.1 = [] then "Unknown".data else tcd.2.1,
           dates := tcd.2.2,
           location := none,
           bullets := bullets,
           raw_text := entryText }

/-- `SectionExtractor.extract_experience` (composition of section lookup,
segmentation and parsing; `if exp:` keeps every parsed record since a
constructed record is truthy). -/
def extractExperience (text : Str) : List Experience :=
  match extractSection text "experience" with
  | none => []
  | some sec => (splitExperienceEntries sec).filterMap parseExperienceEntry

/-! ## Education segmenter and parser
(`_split_education_entries`, `_parse_education_entry`, `extract_education`) -/

/-- `re.search(r"(?i)(bachelor|master|phd|doctorate|degree|бакалавр|магистр|диплом)", line)`
as a Boolean: some alternative occurs in the lowered line. -/
def degreeKeywords : List Str :=
  ["bachelor".data, "master".data, "phd".data, "doctorate".data,
   "degree".data, "бакалавр".data, "магистр".data, "диплом".data]

/-- Does the line contain a degree keyword (case-insensitively)? -/
def hasDegreeKw (line : Str) : Bool :=
  degreeKeywords.any fun k => isSubstr k (pyLower line)

/-- The loop of `_split_education_entries`: a blank line flushes the current
entry; a degree-keyword line starts a new entry when one is open; stripped
lines are buffered. -/
def eduLoop : List Str → List Str → List Str → List Str
  | [], entries, current =>
    if current = [] then entries else entries ++ [joinNl current]
  | line :: rest, entries, current =>
    let l := pyStrip line
    if l = [] then
      if current = [] then eduLoop rest entries []
      else eduLoop rest (entries ++ [joinNl current]) []
    else if hasDegreeKw l = true ∧ current ≠ [] then
      eduLoop rest (entries ++ [joinNl current]) [l]
    else eduLoop rest entries (current ++ [l])

/-- `SectionExtractor._split_education_entries`. -/
def splitEducationEntries (sectionText : Str) : List Str :=
  eduLoop (splitOnNl sectionText) [] []

/-- One digit `/` four digits (the `\d{1,2}/\d{4}` alternative after its
greedy two-digit attempt failed). -/
def tryEduDateSlash1 : Str → Option (Str × Str)
  | c1 :: '/' :: c3 :: c4 :: c5 :: c6 :: rest =>
    if c1.isDigit && c3.isDigit && c4.isDigit && c5.isDigit && c6.isDigit then
      some ([c1, '/', c3, c4, c5, c6], rest)
    else none
  | _ => none

/-- The `\d{1,2}/\d{4}` alternative: greedily two digits before the slash,
backtracking to one. -/
def tryEduDateSlash (s : Str) : Option (Str × Str) :=
  match s with
  | c1 :: c2 :: '/' :: c3 :: c4 :: c5 :: c6 :: rest =>
    if c1.isDigit && c2.isDigit && c3.isDigit && c4.isDigit && c5.isDigit &&
        c6.isDigit then
      some ([c1, c2, '/', c3, c4, c5, c6], rest)
    else tryEduDateSlash1 s
  | _ => tryEduDateSlash1 s

/-- Match of the education date alternation `(\d{4}|\d{1,2}/\d{4})` anchored
at the current position (no word boundaries in this pattern): four digits,
else two digits `/` four digits, else one digit `/` four digits. -/
def tryEduDateCore (s : Str) : Option (Str × Str) :=
  match s with
  | c1 :: c2 :: c3 :: c4 :: rest =>
    if c1.isDigit && c2.isDigit && c3.isDigit && c4.isDigit then
      some ([c1, c2, c3, c4], rest)
    else tryEduDateSlash s
  | _ => tryEduDateSlash s

/-- The optional range extension `(\s*[-–—]\s*(\d{4}|\d{1,2}/\d{4}))?` of the
education date pattern. -/
def tryEduRangeExt (s : Str) : Option (Str × Str) :=
  let ws1 := s.takeWhile pyIsSpace
  match s.dropWhile pyIsSpace with
  | [] => none
  | d :: rest1 =>
    if isDashChar d then
      let ws2 := rest1.takeWhile pyIsSpace
      let rest2 := rest1.dropWhile pyIsSpace
      match tryEduDateCore rest2 with
      | some (m, r) => some (ws1 ++ d :: (ws2 ++ m), r)
      | none => none
    else none

/-- A match of the full education date pattern anchored at the current
position. -/
def tryEduDateAt (s : Str) : Option (Str × Str) :=
  match tryEduDateCore s with
  | none => none
  | some (m, r) =>
    match tryEduRangeExt r with
    | some (e, r2) => some (m ++ e, r2)
    | none => some (m, r)

/-- Leftmost match of the education date pattern (`re.search(...).group(0)`). -/
def findEduDateAux : Str → Option Str
  | [] => none
  | c :: rest =>
    match tryEduDateAt (c :: rest) with
    | some (m, _) => some m
    | none => findEduDateAux rest

/-- `re.search` for the education date pattern. -/
def findEduDate (s : Str) : Option Str := findEduDateAux s

/-- `re.sub(<education date pattern>, "", s)` (fuel = input length). -/
def subEduDatesAux : Nat → Str → Str
  | _, [] => []
  | 0, s => s
  | Nat.succ fuel, c :: rest =>
    match tryEduDateAt (c :: rest) with
    | some (_, rest2) => subEduDatesAux fuel rest2
    | none => c :: subEduDatesAux fuel rest

/-- Remove all education-date matches. -/
def subEduDates (s : Str) : Str := subEduDatesAux s.length s

/-- Match of the degree pattern
`(?i)(bachelor|master|phd|doctorate|degree|бакалавр|магистр|диплом)[\w\s]*`
anchored at the current position; returns the original-case slice
(`group(0)`). -/
def tryDegreeAt (s : Str) : Option Str :=
  match degreeKeywords.findSome?
      (fun k => if k.isPrefixOf (pyLower s) then some k.length else none) with
  | none => none
  | some n =>
    some (s.take n ++ (s.drop n).takeWhile (fun c => isWordChar c || pyIsSpace c))

/-- Leftmost match of the degree pattern (`re.search(...).group(0)`). -/
def findDegreeAux : Str → Option Str
  | [] => none
  | c :: rest =>
    match tryDegreeAt (c :: rest) with
    | some m => some m
    | none => findDegreeAux rest

/-- `re.search` for the degree pattern. -/
def findDegree (s : Str) : Option Str := findDegreeAux s

/-- Python `s.replace(needle, "")` (remove every occurrence, left to right,
non-overlapping; fuel = input length). -/
def removeAllAux : Nat → Str → Str → Str
  | _, _, [] => []
  | 0, _, s => s
  | Nat.succ fuel, needle, c :: rest =>
    if needle.isPrefixOf (c :: rest) && !needle.isEmpty then
      removeAllAux fuel needle ((c :: rest).drop needle.length)
    else c :: removeAllAux fuel needle rest

/-- Python `s.replace(needle, "")`. -/
def removeAll (needle s : Str) : Str := removeAllAux s.length needle s

/-- `re.sub(r"^[-•*|]\s*", "", s)`. -/
def subLeadingEduMarker : Str → Str
  | c :: rest =>
    if c = '-' || c = '•' || c = '*' || c = '|' then rest.dropWhile pyIsSpace
    else c :: rest
  | [] => []

/-- `re.sub(r"\s*[-•*|]\s*$", "", s)`: remove a trailing marker together
with the whitespace around it. -/
def subTrailingEduMarker (s : Str) : Str :=
  let r := s.reverse
  match r.dropWhile pyIsSpace with
  | c :: rest =>
    if c = '-' || c = '•' || c = '*' || c = '|' then
      (rest.dropWhile pyIsSpace).reverse
    else s
  | [] => s

/-- `SectionExtractor._parse_education_entry`. -/
def parseEducationEntry (entryText : Str) : Option Education :=
  let lines := ((splitOnNl entryText).map pyStrip).filter (fun l => !l.isEmpty)
  if lines = [] then none
  else
    let first := lines.headD []
    let dates := (findEduDate first).map pyStrip
    let degree := (findDegree first).map pyStrip
    let inst0 := first
    let inst1 := match degree with
      | some dg => pyStrip (removeAll dg inst0)
      | none => inst0
    let inst2 := match dates with
      | some _ => pyStrip (subEduDates inst1)
      | none => inst1
    let inst3 := subTrailingEduMarker (subLeadingEduMarker inst2)
    some { degree := degree,
           institution := if inst3 = [] then "Unknown".data else inst3,
           dates := dates,
           location := none,
           details := if 1 < lines.length then some (joinNl (lines.drop 1)) else none }

/-- `SectionExtractor.extract_education`. -/
def extractEducation (text : Str) : List Education :=
  match extractSection text "education" with
  | none => []
  | some sec => (splitEducationEntries sec).filterMap parseEducationEntry

/-! ## Summary extractor (`SectionExtractor.extract_summary`) -/

/-- `SectionExtractor.extract_summary`: the located section minus its header
line, joined and stripped; `None` when empty. -/
def extractSummary (text : Str) : Option Str :=
  match extractSection text "summary" with
  | none => none
  | some sec =>
    let lines := splitOnNl sec
    let lines2 := if lines = [] then lines else lines.drop 1
    let summary := pyStrip (joinNl lines2)
    if summary = [] then none else some summary

/-! ## Contact extractor (`SectionExtractor.extract_contact`) -/

/-- The class `[A-Za-z0-9._%+-]` of the email pattern. -/
def emailC1 (c : Char) : Bool :=
  c.isAlphanum || c = '.' || c = '_' || c = '%' || c = '+' || c = '-'

/-- The class `[A-Za-z0-9.-]` of the email pattern. -/
def emailC2 (c : Char) : Bool := c.isAlphanum || c = '.' || c = '-'

/-- The class `[A-Z|a-z]` of the email pattern (the `|` is a literal class
member in the source pattern). -/
def emailC3 (c : Char) : Bool := c.isAlpha || c = '|'

/-- The candidate splits of a greedy `class{min,}` atom: consumed prefix and
remainder, longest consumed first (regex backtracking order). -/
def greedySplits (p : Char → Bool) (minN : Nat) (s : Str) : List (Str × Str) :=
  let t := s.takeWhile p
  let r := s.dropWhile p
  let n := t.length
  if n < minN then []
  else (List.range (n - minN + 1)).map fun i => (t.take (n - i), t.drop (n - i) ++ r)

/-- Match of `EMAIL_PATTERN = \b[A-Za-z0-9._%+-]+@[A-Za-z0-9.-]+\.[A-Z|a-z]{2,}\b`
anchored at the current position (`prev` is the preceding character, for the
boundaries). -/
def matchEmailAt (prev : Option Char) (s : Str) : Option Str :=
  (greedySplits emailC1 1 s).findSome? fun p1 =>
    if wordOpt prev != wordOpt p1.1.head? then
      match p1.2 with
      | '@' :: r2 =>
        (greedySplits emailC2 1 r2).findSome? fun p2 =>
          match p2.2 with
          | '.' :: r4 =>
            (greedySplits emailC3 2 r4).findSome? fun p3 =>
              if wordOpt p3.1.getLast? != wordOpt p3.2.head? then
                some (p1.1 ++ '@' :: (p2.1 ++ '.' :: p3.1))
              else none
          | _ => none
      | _ => none
    else none

/-- `EMAIL_PATTERN.search(text)`: leftmost match. -/
def searchEmailAux : Option Char → Str → Option Str
  | _, [] => none
  | prev, c :: rest =>
    match matchEmailAt prev (c :: rest) with
    | some m => some m
    | none => searchEmailAux (some c) rest

/-- First email-shaped substring of the text, if any. -/
def searchEmail (s : Str) : Option Str := searchEmailAux none s

/-- The separator class `[-.\s]` of the phone pattern. -/
def phoneSep (c : Char) : Bool := c = '-' || c = '.' || pyIsSpace c

/-- Candidates for an optional literal character (`x?`): with the character
first (greedy), then without. -/
def optChar (c : Char) (s : Str) : List (Str × Str) :=
  match s with
  | x :: r => if x = c then [([c], r), ([], x :: r)] else [([], x :: r)]
  | [] => [([], [])]

/-- Candidates for an optional class character (`[..]?`). -/
def optClass (p : Char → Bool) (s : Str) : List (Str × Str) :=
  match s with
  | x :: r => if p x then [([x], r), ([], x :: r)] else [([], x :: r)]
  | [] => [([], [])]

/-- Candidates of a greedy `\d{min,max}` atom, longest first. -/
def digitsRange (minN maxN : Nat) (s : Str) : List (Str × Str) :=
  let t := s.takeWhile Char.isDigit
  let r := s.dropWhile Char.isDigit
  let n := min t.length maxN
  if n < minN then []
  else (List.range (n - minN + 1)).map fun i =>
    (t.take (n - i), t.drop (n - i) ++ r)

/-- Match of the mandatory part `\(?\d{1,4}\)?[-.\s]?\d{1,4}[-.\s]?\d{1,9}`
of `PHONE_PATTERN` anchored at the current position, with full
backtracking. -/
def phoneCore (s : Str) : Option Str :=
  (optChar '(' s).findSome? fun a1 =>
  (digitsRange 1 4 a1.2).findSome? fun a2 =>
  (optChar ')' a2.2).findSome? fun a3 =>
  (optClass phoneSep a3.2).findSome? fun a4 =>
  (digitsRange 1 4 a4.2).findSome? fun a5 =>
  (optClass phoneSep a5.2).findSome? fun a6 =>
  (digitsRange 1 9 a6.2).findSome? fun a7 =>
  some (a1.1 ++ a2.1 ++ a3.1 ++ a4.1 ++ a5.1 ++ a6.1 ++ a7.1)

/-- Candidates of the optional country-code group `(\+?\d{1,3}[-.\s]?)?`,
greedy expansions first and the empty option last. -/
def phoneGroupOpts (s : Str) : List (Str × Str) :=
  ((optChar '+' s).flatMap fun a1 =>
    (digitsRange 1 3 a1.2).flatMap fun a2 =>
      (optClass phoneSep a2.2).map fun a3 => (a1.1 ++ a2.1 ++ a3.1, a3.2)) ++
  [([], s)]

/-- Match of the full `PHONE_PATTERN` anchored at the current position. -/
def matchPhoneAt (s : Str) : Option Str :=
  (phoneGroupOpts s).findSome? fun g => (phoneCore g.2).map fun m => g.1 ++ m

/-- `PHONE_PATTERN.search(text)`: leftmost match. -/
def searchPhoneAux : Str → Option Str
  | [] => none
  | c :: rest =>
    match matchPhoneAt (c :: rest) with
    | some m => some m
    | none => searchPhoneAux rest

/-- First phone-shaped substring of the text, if any. -/
def searchPhone (s : Str) : Option Str := searchPhoneAux s

/-- The handle class `[\w-]` of the LinkedIn/GitHub patterns. -/
def handleChar (c : Char) : Bool := isWordChar c || c = '-'

/-- Match of `LINKEDIN_PATTERN` anchored at the current position, returning
`group(1)` (original casing). -/
def matchLinkedInAt (s : Str) : Option Str :=
  if ("linkedin.com/in/".data).isPrefixOf (pyLower s) then
    let h := (s.drop 16).takeWhile handleChar
    if h = [] then none else some h
  else if ("linkedin.com/pub/".data).isPrefixOf (pyLower s) then
    let h := (s.drop 17).takeWhile handleChar
    if h = [] then none else some h
  else none

/-- `LINKEDIN_PATTERN.search(text).group(1)`. -/
def searchLinkedIn : Str → Option Str
  | [] => none
  | c :: rest =>
    match matchLinkedInAt (c :: rest) with
    | some m => some m
    | none => searchLinkedIn rest

/-- Match of `GITHUB_PATTERN` anchored at the current position, returning
`group(1)`. -/
def matchGitHubAt (s : Str) : Option Str :=
  if ("github.com/".data).isPrefixOf (pyLower s) then
    let h := (s.drop 11).takeWhile handleChar
    if h = [] then none else some h
  else none

/-- `GITHUB_PATTERN.search(text).group(1)`. -/
def searchGitHub : Str → Option Str
  | [] => none
  | c :: rest =>
    match matchGitHubAt (c :: rest) with
    | some m => some m
    | none => searchGitHub rest

/-- Alternatives of the header-word skip pattern of the name scan:
`r"(?i)^(email|phone|location|address|contact|summary|experience|skills|education)"`. -/
def contactSkipWords : List Str :=
  ["email".data, "phone".data, "location".data, "address".data,
   "contact".data, "summary".data, "experience".data, "skills".data,
   "education".data]

/-- The name scan of `extract_contact` over the first 10 lines. -/
def nameLoop : List Str → Option Str → Option Str → Option Str
  | [], _, _ => none
  | line :: rest, email, phone =>
    let l := pyStrip line
    if l = [] then nameLoop rest email phone
    else if (match email with
             | some e => isSubstr e l
             | none => false) then nameLoop rest email phone
    else if (match phone with
             | some p => isSubstr p l
             | none => false) then nameLoop rest email phone
    else if contactSkipWords.any (fun w => w.isPrefixOf (pyLower l)) then
      nameLoop rest email phone
    else
      let words := splitWs l
      if 2 ≤ words.length ∧ words.length ≤ 4 ∧ !l.any Char.isDigit ∧
          !(startsWithBulletChar l || l.headD ' ' = '#') ∧ !l.contains ':' then
        some l
      else nameLoop rest email phone

/-- `SectionExtractor.extract_contact`. -/
def extractContact (text : Str) : ContactInfo :=
  let email := searchEmail text
  let phone := searchPhone text
  let linkedin := (searchLinkedIn text).map
    fun h => "https://linkedin.com/in/".data ++ h
  let github := (searchGitHub text).map
    fun h => "https://github.com/".data ++ h
  let name := nameLoop ((splitOnNl text).take 10) email phone
  { name := name, email := email, phone := phone, location := none,
    linkedin := linkedin, github := github }

/-! ## Match scorer (`app/analyzers/matcher.py`, class `ResumeMatcher`) -/

/-- `ResumeMatcher._extract_resume_keywords`: skills, summary words
(lowered), experience titles/companies (lowered) and bullet words
(lowered).  `if resume.summary:` is Python truthiness (not `None` and not
empty). -/
def extractResumeKeywords (r : ParsedResume) : List Str :=
  r.skills ++
  (match r.summary with
   | some s => if s = [] then [] else splitWs (pyLower s)
   | none => []) ++
  r.experience.flatMap fun e =>
    [pyLower e.title, pyLower e.company] ++
      e.bullets.flatMap fun b => splitWs (pyLower b)

/-- The title-match component of `_compute_ats_score` (weight 10): `10.0`
when the lowered job title occurs in the lowered résumé raw text, else
`5.0` when some whitespace token of the title occurs among the raw-text
tokens, else `0.0`; the whole check is guarded by `if job.title:`
(Python truthiness, i.e. a non-empty title). -/
def titleScore (title : Str) (rawText : Str) : ℚ :=
  if title ≠ [] then
    let jt := pyLower title
    let rt := pyLower rawText
    if isSubstr jt rt then 10
    else if (splitWs jt).toFinset ∩ (splitWs rt).toFinset ≠ ∅ then 5
    else 0
  else 0

/-- Python `", ".join(items)`. -/
def joinCommaSpace : List Str → Str
  | [] => []
  | [l] => l
  | l :: ls => l ++ ',' :: ' ' :: joinCommaSpace ls

/-- `ResumeMatcher._compute_ats_score` (all keyword sets already lowered by
the caller).  Returns `50.0` for an empty job-keyword set, else the clamped
weighted sum.  The `nice_to_have` parameter is accepted but unused, exactly
as in the source. -/
def computeAtsScore (resumeKeywords jobKeywords mustHave : Finset Str)
    (_niceToHave : Finset Str) (resume : ParsedResume) (job : JobPosting) : ℚ :=
  if jobKeywords = ∅ then 50
  else
    let overlap := resumeKeywords ∩ jobKeywords
    let keywordMatchRatio : ℚ :=
      if jobKeywords ≠ ∅ then (overlap.card : ℚ) / (jobKeywords.card : ℚ) else 0
    let keywordScore := keywordMatchRatio * 60
    let mustHaveMatch := resumeKeywords ∩ mustHave
    let mustHaveRatio : ℚ :=
      if mustHave ≠ ∅ then (mustHaveMatch.card : ℚ) / (mustHave.card : ℚ) else 1
    let mustHaveScore := mustHaveRatio * 30
    let totalScore := keywordScore + mustHaveScore + titleScore job.title resume.raw_text
    min 100 (max 0 totalScore)

/-- `ResumeMatcher._generate_recommendations`, with the iteration order of
the two missing-keyword sets passed in as lists (the source calls
`list(missing_must_have)[:5]` on a Python `set`, whose order is
unspecified). -/
def generateRecommendations (missingMustHave missingNiceToHave : List Str)
    (summary : Option Str) (skills : List Str) : List Str :=
  (if missingMustHave ≠ [] then
    ["Add must-have keywords: ".data ++
      joinCommaSpace (missingMustHave.take 5)]
   else []) ++
  (if missingNiceToHave ≠ [] then
    ["Consider adding: ".data ++ joinCommaSpace (missingNiceToHave.take 5)]
   else []) ++
  (if (match summary with
       | none => true
       | some s => s = [] || s.length < 50) then
    ["Add a professional summary section highlighting key qualifications".data]
   else []) ++
  (if skills = [] || skills.length < 5 then
    ["Expand skills section with relevant keywords".data]
   else [])

/-- `ResumeMatcher.analyze_match`.  `enum` stands for CPython's unspecified
`set` iteration order, used wherever the source converts a set to a list. -/
def analyzeMatch (enum : Finset Str → List Str) (resume : ParsedResume)
    (job : JobPosting) : MatchAnalysis :=
  let resumeKeywords := extractResumeKeywords resume
  let jobKeywords :=
    (job.keywords ++ job.must_have_keywords ++ job.nice_to_have_keywords).toFinset
  let mustHave := job.must_have_keywords.toFinset
  let niceToHave := job.nice_to_have_keywords.toFinset
  let resumeKeywordsSet := (resumeKeywords.map pyLower).toFinset
  let jobKeywordsLower := jobKeywords.image pyLower
  let mustHaveLower := mustHave.image pyLower
  let niceToHaveLower := niceToHave.image pyLower
  let overlap := resumeKeywordsSet ∩ jobKeywordsLower
  let missingMustHave := mustHaveLower \ resumeKeywordsSet
  let missingNiceToHave := niceToHaveLower \ resumeKeywordsSet
  let atsScore := computeAtsScore resumeKeywordsSet jobKeywordsLower
    mustHaveLower niceToHaveLower resume job
  let recommendations := generateRecommendations (enum missingMustHave)
    (enum missingNiceToHave) resume.summary resume.skills
  { ats_score := atsScore,
    keyword_overlap := enum overlap,
    missing_keywords := enum (missingMustHave ∪ missingNiceToHave),
    recommendations := recommendations }

/-! ## Specification-side comparison definition and concrete inputs -/

/-- The title component as the specification words it (spec §4.7):
`10.0` if the case-folded job title is a substring of the case-folded résumé
raw text; else `5.0` if any whitespace token of the job title appears among
résumé raw-text tokens; else `0.0`.  Stated without the source's
`if job.title:` truthiness guard, for comparison with `titleScore`. -/
def specTitleScore (title rawText : Str) : ℚ :=
  if isSubstr (pyLower title) (pyLower rawText) then 10
  else if (splitWs (pyLower title)).toFinset ∩ (splitWs (pyLower rawText)).toFinset ≠ ∅ then 5
  else 0

/-- A concrete `set`-enumeration function (used to instantiate theorems that
hold for every enumeration). -/
def nilEnum : Finset Str → List Str := fun _ => []

/-- A fully empty contact record. -/
def emptyContact : ContactInfo := ⟨none, none, none, none, none, none⟩

/-- A résumé with no content. -/
def emptyResume : ParsedResume :=
  ⟨emptyContact, none, [], [], [], [], [], "en".data, []⟩

/-- A job posting with no keywords. -/
def emptyJob : JobPosting :=
  ⟨[], none, none, [], [], [], [], [], [], "en".data, []⟩

/-- The two-job experience text of spec §8. -/
def c5Input : Str :=
  "Software Engineer\nAcme Corp\n2020 - Present\n- Built APIs\n- Led team\n\nJunior Dev\nBeta Inc\n2018 - 2020\n- Wrote tests".data

/-- The record produced for the header-only entry `Dev Lead\nAcme\n2020`. -/
def c9ExpEntry : Experience :=
  ⟨"Dev Lead".data, "Acme".data, "2020".data, none, [],
    "Dev Lead\nAcme\n2020".data⟩

/-- The record produced for the education entry `2020` (dates only, sentinel
institution). -/
def c9EduEntry : Education :=
  ⟨none, "Unknown".data, some ("2020".data), none, none⟩

/-! ## Helper lemmas about the string model -/

/-- `splitOnChar` never returns the empty list. -/
theorem splitOnChar_ne_nil (sep : Char) : ∀ s : Str, splitOnChar sep s ≠ []
  | [] => by simp [splitOnChar]
  | c :: rest => by
    by_cases hc : c = sep
    · simp [splitOnChar, hc]
    · have ih := splitOnChar_ne_nil sep rest
      rcases h : splitOnChar sep rest with _ | ⟨l, ls⟩
      · exact absurd h ih
      · simp [splitOnChar, hc, h]

/-- A string without the separator splits into itself alone. -/
theorem splitOnChar_of_not_mem (sep : Char) :
    ∀ {s : Str}, sep ∉ s → splitOnChar sep s = [s]
  | [], _ => by simp [splitOnChar]
  | c :: rest, h => by
    have hc : ¬c = sep := fun hcc => h (hcc ▸ List.mem_cons_self c rest)
    have hrest : sep ∉ rest := fun hm => h (List.mem_cons_of_mem c hm)
    simp [splitOnChar, hc, splitOnChar_of_not_mem sep hrest]

/-- Splitting at an explicit separator after a separator-free prefix. -/
theorem splitOnChar_append (sep : Char) :
    ∀ {s1 : Str} (s2 : Str), sep ∉ s1 →
      splitOnChar sep (s1 ++ sep :: s2) = s1 :: splitOnChar sep s2
  | [], s2, _ => by simp [splitOnChar]
  | c :: cs, s2, h => by
    have hc : ¬c = sep := fun hcc => h (hcc ▸ List.mem_cons_self c cs)
    have hcs : sep ∉ cs := fun hm => h (List.mem_cons_of_mem c hm)
    simp [splitOnChar, hc, splitOnChar_append sep s2 hcs]

/-- Every non-separator character of the input ends up inside some piece. -/
theorem exists_mem_splitOnChar (sep : Char) :
    ∀ {s : Str} {c : Char}, c ∈ s → c ≠ sep →
      ∃ l ∈ splitOnChar sep s, c ∈ l
  | [], c, hc, _ => absurd hc (List.not_mem_nil c)
  | a :: rest, c, hc, hne => by
    by_cases ha : a = sep
    · have hcr : c ∈ rest := by
        rcases List.mem_cons.mp hc with h | h
        · exact absurd (h.trans ha) hne
        · exact h
      obtain ⟨l, hl, hcl⟩ := exists_mem_splitOnChar sep hcr hne
      exact ⟨l, by simp [splitOnChar, ha, hl], hcl⟩
    · rcases h : splitOnChar sep rest with _ | ⟨l, ls⟩
      · exact absurd h (splitOnChar_ne_nil sep rest)
      · rcases List.mem_cons.mp hc with hca | hcr
        · exact ⟨a :: l, by simp [splitOnChar, ha, h], by simp [hca]⟩
        · obtain ⟨l0, hl0, hcl0⟩ := exists_mem_splitOnChar sep hcr hne
          rw [h] at hl0
          rcases List.mem_cons.mp hl0 with h1 | h1
          · exact ⟨a :: l, by simp [splitOnChar, ha, h], by
              exact List.mem_cons_of_mem a (h1 ▸ hcl0)⟩
          · exact ⟨l0, by simp [splitOnChar, ha, h, h1], hcl0⟩

/-- A character that does not satisfy `p` survives `dropWhile p`. -/
theorem mem_dropWhile_of_not (p : Char → Bool) :
    ∀ {l : Str} {c : Char}, c ∈ l → p c = false → c ∈ l.dropWhile p
  | [], c, hc, _ => absurd hc (List.not_mem_nil c)
  | a :: rest, c, hc, hp => by
    cases hpa : p a with
    | false =>
      rw [List.dropWhile_cons_of_neg (by simp [hpa])]
      exact hc
    | true =>
      rw [List.dropWhile_cons_of_pos (by simp [hpa])]
      rcases List.mem_cons.mp hc with h | h
      · exact absurd (h ▸ hp) (by simp [hpa])
      · exact mem_dropWhile_of_not p h hp

/-- A non-whitespace character of `s` survives `pyStrip`. -/
theorem mem_pyStrip {c : Char} {s : Str} (hc : c ∈ s)
    (hns : pyIsSpace c = false) : c ∈ pyStrip s := by
  unfold pyStrip
  rw [List.mem_reverse]
  exact mem_dropWhile_of_not pyIsSpace
    (List.mem_reverse.mpr (mem_dropWhile_of_not pyIsSpace hc hns)) hns

/-- `pyStrip` yields the empty string exactly when every character is
whitespace. -/
theorem pyStrip_eq_nil_iff {s : Str} :
    pyStrip s = [] ↔ ∀ c ∈ s, pyIsSpace c = true := by
  constructor
  · intro h c hc
    by_contra hne
    have : c ∈ pyStrip s :=
      mem_pyStrip hc (by simpa using hne)
    rw [h] at this
    exact List.not_mem_nil c this
  · intro h
    have h1 : s.dropWhile pyIsSpace = [] :=
      List.dropWhile_eq_nil_iff.mpr (fun c hc => by simp [h c hc])
    simp [pyStrip, h1]

/-- A string whose strip is non-empty contains a non-whitespace character. -/
theorem exists_nonspace_of_pyStrip_ne_nil {s : Str} (h : pyStrip s ≠ []) :
    ∃ c ∈ s, pyIsSpace c = false := by
  by_contra hno
  push_neg at hno
  exact h (pyStrip_eq_nil_iff.mpr (fun c hc => by
    have := hno c hc
    simpa using this))

/-- An entry text containing a non-whitespace character parses to `some`
education record. -/
theorem parseEducationEntry_isSome {t : Str}
    (h : ∃ c ∈ t, pyIsSpace c = false) :
    (parseEducationEntry t).isSome = true := by
  obtain ⟨c, hct, hcs⟩ := h
  have hcn : c ≠ '\n' := by
    intro hc
    rw [hc] at hcs
    simp [pyIsSpace] at hcs
  obtain ⟨l, hl, hcl⟩ := exists_mem_splitOnChar '\n' hct hcn
  have hmem : pyStrip l ∈ ((splitOnNl t).map pyStrip).filter (fun x => !x.isEmpty) := by
    rw [List.mem_filter]
    refine ⟨List.mem_map_of_mem pyStrip hl, ?_⟩
    have hmm : c ∈ pyStrip l := mem_pyStrip hcl hcs
    have hne2 : pyStrip l ≠ [] := fun he => List.not_mem_nil c (he ▸ hmm)
    simp [List.isEmpty_iff, hne2]
  have hne : ((splitOnNl t).map pyStrip).filter (fun x => !x.isEmpty) ≠ [] :=
    List.ne_nil_of_mem hmem
  simp only [parseEducationEntry]
  split
  · next heq => exact absurd heq hne
  · rfl

/-- `dedupAux` produces a duplicate-free list disjoint from the seen set. -/
theorem dedupAux_nodup :
    ∀ (l seen : List Str), (dedupAux l seen).Nodup ∧
      ∀ x ∈ dedupAux l seen, x ∉ seen
  | [], _ => by simp [dedupAux]
  | x :: xs, seen => by
    cases h : seen.contains x with
    | true =>
      rw [dedupAux, if_pos h]
      exact dedupAux_nodup xs seen
    | false =>
      rw [dedupAux, if_neg (by simp_all)]
      obtain ⟨ih1, ih2⟩ := dedupAux_nodup xs (x :: seen)
      constructor
      · refine List.nodup_cons.mpr ⟨fun hx => ?_, ih1⟩
        exact ih2 x hx (List.mem_cons_self x seen)
      · intro y hy hys
        rcases List.mem_cons.mp hy with h1 | h1
        · rw [h1] at hys
          have : seen.contains x = true := List.elem_eq_true_of_mem hys
          rw [this] at h
          exact Bool.noConfusion h
        · exact ih2 y h1 (List.mem_cons_of_mem x hys)

/-- The output of `dedupKeepFirst` has no exact duplicates. -/
theorem dedupKeepFirst_nodup (l : List Str) : (dedupKeepFirst l).Nodup :=
  (dedupAux_nodup l []).1

/-! ## Claim theorems -/

/-- C1: for every `ParsedResume` and `JobPosting` (and any set-iteration
order), the `ats_score` of the `MatchAnalysis` returned by `analyze_match`
lies between 0 and 100 inclusive: the total of the keyword, must-have and
title components is clamped by `min(100.0, max(0.0, total))`, and the
empty-keyword branch returns 50. -/
theorem C1_ats_score_bounded (enum : Finset Str → List Str)
    (resume : ParsedResume) (job : JobPosting) :
    0 ≤ (analyzeMatch enum resume job).ats_score ∧
      (analyzeMatch enum resume job).ats_score ≤ 100 := by
  simp only [analyzeMatch, computeAtsScore]
  split
  · norm_num
  · constructor
    · exact le_min (by norm_num) (le_max_left 0 _)
    · exact min_le_left 100 _

/-- C2: when the union of `job.keywords`, `job.must_have_keywords` and
`job.nice_to_have_keywords` is empty, `analyze_match` returns an
`ats_score` of exactly 50 (the guard `if not job_keywords` fires before any
division). -/
theorem C2_empty_keywords_score_50 (enum : Finset Str → List Str)
    (resume : ParsedResume) (job : JobPosting)
    (h : job.keywords ++ job.must_have_keywords ++ job.nice_to_have_keywords = []) :
    (analyzeMatch enum resume job).ats_score = 50 := by
  simp only [analyzeMatch, computeAtsScore, h]
  simp

/-- C2 witness: a job with no keywords at all scores exactly 50 against the
empty résumé. -/
theorem C2_witness :
    (emptyJob.keywords ++ emptyJob.must_have_keywords ++
        emptyJob.nice_to_have_keywords = []) ∧
      (analyzeMatch nilEnum emptyResume emptyJob).ats_score = 50 :=
  ⟨rfl, C2_empty_keywords_score_50 nilEnum emptyResume emptyJob rfl⟩

/-- C3 counterexample: for the skills-section input whose token sequence is
`["Python", "python", "SQL"]`, `extract_skills` returns all three tokens —
`list(dict.fromkeys(...))` deduplicates by case-sensitive exact key
equality, so `"Python"` and `"python"` are distinct keys and the claimed
output `["Python", "SQL"]` is not produced. -/
theorem C3_counterexample :
    extractSkills ("Skills\nPython, python, SQL".data) =
        ["Python".data, "python".data, "SQL".data] ∧
      extractSkills ("Skills\nPython, python, SQL".data) ≠
        ["Python".data, "SQL".data] := by
  constructor
  · decide
  · decide

/-- C3 (amended): `extract_skills` deduplicates by case-sensitive exact
match while preserving first-seen order (its output never contains an exact
duplicate), and the token sequence `["Python", "python", "SQL"]` is
returned unchanged. -/
theorem C3_case_sensitive_dedup :
    (∀ t : Str, (extractSkills t).Nodup) ∧
      extractSkills ("Skills\nPython, python, SQL".data) =
        ["Python".data, "python".data, "SQL".data] := by
  constructor
  · intro t
    unfold extractSkills
    cases extractSection t "skills" with
    | none => simp
    | some sec => exact dedupKeepFirst_nodup _
  · decide

/-- C4: the recommendation strings are built from the missing-keyword sets
in raw `set` iteration order, with no sorting.  For the valid iteration
order `["zeta", "alpha"]` of the missing must-have set `{"alpha", "zeta"}`,
the generated string names the keywords as `"zeta, alpha"`, not in the
sorted order `"alpha, zeta"` the claim requires. -/
theorem C4_unsorted_exhibit :
    generateRecommendations ["zeta".data, "alpha".data] [] none [] =
        ["Add must-have keywords: zeta, alpha".data,
         "Add a professional summary section highlighting key qualifications".data,
         "Expand skills section with relevant keywords".data] ∧
      ("Add must-have keywords: zeta, alpha".data ≠
        "Add must-have keywords: alpha, zeta".data) ∧
      List.Perm ["zeta".data, "alpha".data] ["alpha".data, "zeta".data] := by
  refine ⟨by decide, by decide, ?_⟩
  exact List.Perm.swap _ _ _

/-- C5: segmenting and parsing the two-job experience text of spec §8
yields exactly the two expected entries, field for field. -/
theorem C5_segmentation_example :
    (splitExperienceEntries c5Input).filterMap parseExperienceEntry =
      [{ title := "Software Engineer".data, company := "Acme Corp".data,
         dates := "2020 - Present".data, location := none,
         bullets := ["Built APIs".data, "Led team".data],
         raw_text := "Software Engineer\nAcme Corp\n2020 - Present\n- Built APIs\n- Led team".data },
       { title := "Junior Dev".data, company := "Beta Inc".data,
         dates := "2018 - 2020".data, location := none,
         bullets := ["Wrote tests".data],
         raw_text := "Junior Dev\nBeta Inc\n2018 - 2020\n- Wrote tests".data }] := by
  decide

/-- C6 counterexample: `"Career History"` matches the experience header
patterns of `SECTION_PATTERNS`, yet `_split_experience_entries` does not
drop it — its re-match pattern omits the
`professional experience|career history` alternatives — so the single
returned entry block still begins with the section header line. -/
theorem C6_counterexample :
    lineIsHeaderOf "experience" ("Career History".data) = true ∧
      matchesExpSkip (pyStrip ("Career History".data)) = false ∧
      splitExperienceEntries
          ("Career History\nSoftware Engineer\nAcme Corp\n2020 - 2021\n- Did x".data) =
        ["Career History\nSoftware Engineer\nAcme Corp\n2020 - 2021\n- Did x".data] := by
  refine ⟨by decide, by decide, by decide⟩

/-- C6 (amended): the experience segmenter drops the leading line exactly
when it matches the narrower re-match pattern
`(?i)^(experience|work experience|employment|work history|опыт работы)`;
a leading line matching only the second pattern group (such as
`"Professional Experience"` or `"Career History"`) is retained in the first
entry block. -/
theorem C6_skip_only_first_group (first rest : Str) (h1 : '\n' ∉ first)
    (h2 : matchesExpSkip (pyStrip first) = true) :
    splitExperienceEntries (first ++ '\n' :: rest) =
      expLoop (splitOnNl rest) [] [] := by
  have hs : splitOnChar '\n' (first ++ '\n' :: rest) =
      first :: splitOnChar '\n' rest := splitOnChar_append '\n' rest h1
  simp only [splitExperienceEntries, splitOnNl, hs, h2, if_true]

/-- C6 witness: `"Work History"` is dropped by the segmenter. -/
theorem C6_witness :
    ('\n' ∉ ("Work History".data)) ∧
      matchesExpSkip (pyStrip ("Work History".data)) = true ∧
      splitExperienceEntries (("Work History".data) ++ '\n' :: ("Dev".data)) =
        expLoop (splitOnNl ("Dev".data)) [] [] :=
  ⟨by decide, by decide,
    C6_skip_only_first_group ("Work History".data) ("Dev".data) (by decide) (by decide)⟩

/-- C7 counterexample: for an empty job title the claim's formula gives 10
(the empty string is a substring of every text), but the code's
`if job.title:` truthiness guard short-circuits to 0, so the claimed
formula does not hold for every job posting. -/
theorem C7_counterexample :
    titleScore [] ("abc".data) = 0 ∧
      isSubstr (pyLower []) (pyLower ("abc".data)) = true ∧
      specTitleScore [] ("abc".data) = 10 ∧
      titleScore [] ("abc".data) ≠ specTitleScore [] ("abc".data) := by
  refine ⟨by decide, by decide, ?_, ?_⟩
  · simp [specTitleScore]
    decide
  · intro h
    rw [show titleScore [] ("abc".data) = 0 by decide] at h
    rw [show specTitleScore [] ("abc".data) = 10 from by
      simp [specTitleScore]
      decide] at h
    norm_num at h

/-- C7 (amended): for every job posting with a non-empty title, the title
component is 10 when the lowered title is a substring of the lowered résumé
raw text, else 5 when some whitespace token of the title occurs among the
raw-text tokens, else 0; when the title is empty the component is 0. -/
theorem C7_title_component (title rawText : Str) (h : title ≠ []) :
    titleScore title rawText = specTitleScore title rawText := by
  simp only [titleScore, specTitleScore, if_pos h]

/-- C7 witness: a title occurring verbatim in the raw text. -/
theorem C7_witness :
    (("Engineer".data : Str) ≠ []) ∧
      titleScore ("Engineer".data) ("Senior Engineer".data) =
        specTitleScore ("Engineer".data) ("Senior Engineer".data) :=
  ⟨by decide, C7_title_component ("Engineer".data) ("Senior Engineer".data) (by decide)⟩

/-- C8: the Summary prose line `"I have experience in management"` matches
no experience header pattern (they are anchored at line start), so it
neither starts an Experience section — `_extract_section` finds none in a
text containing only that prose under a Summary header — nor terminates
one: the Summary section runs through the prose line to the end of the
text. -/
theorem C8_anchored_headers :
    lineIsHeaderOf "experience"
        (pyStrip ("I have experience in management".data)) = false ∧
      extractSection ("Summary\nI have experience in management".data)
        "experience" = none ∧
      extractSection ("Summary\nI have experience in management".data)
        "summary" = some ("Summary\nI have experience in management".data) := by
  refine ⟨by decide, by decide, by decide⟩

/-- The `x or "Unknown"` defaulting of the parsers never yields an empty
string. -/
theorem ifUnknown_ne_nil (x : Str) :
    (if x = [] then "Unknown".data else x) ≠ [] := by
  split
  · decide
  · next hne => exact hne

/-- C9: malformed or incomplete input degrades to defaults and every
operation returns a value: a parsed experience entry never has an empty
title or company (the `"Unknown"` sentinel fills unclassified fields), a
parsed education entry never has an empty institution, an absent section
yields the empty/absent default for each extractor, the extractors return
the all-absent defaults on empty input (including every contact field), the
sentinel records are produced for bullet-only and dates-only entries, and
the scorer always returns a result with at most its four recommendation
strings.  (In this embedding every operation is a total function, matching
the source's absence of raising paths.) -/
theorem C9_total_with_defaults :
    (∀ t e, parseExperienceEntry t = some e → e.title ≠ [] ∧ e.company ≠ []) ∧
    (∀ t e, parseEducationEntry t = some e → e.institution ≠ []) ∧
    (∀ t, extractSection t "experience" = none → extractExperience t = []) ∧
    (∀ t, extractSection t "skills" = none → extractSkills t = []) ∧
    (∀ t, extractSection t "education" = none → extractEducation t = []) ∧
    (∀ t, extractSection t "summary" = none → extractSummary t = none) ∧
    extractContact [] = emptyContact ∧
    extractSummary [] = none ∧ extractSkills [] = [] ∧
    extractExperience [] = [] ∧ extractEducation [] = [] ∧
    parseExperienceEntry ("- Led team".data) =
      some ⟨"Unknown".data, "Unknown".data, [], none, ["Led team".data],
        "- Led team".data⟩ ∧
    parseEducationEntry ("2020".data) = some c9EduEntry ∧
    (∀ enum r j, (analyzeMatch enum r j).recommendations.length ≤ 4) := by
  refine ⟨?_, ?_, ?_, ?_, ?_, ?_, by decide, by decide, by decide, by decide,
    by decide, by decide, by decide, ?_⟩
  · intro t e h
    simp only [parseExperienceEntry] at h
    split at h
    · exact absurd h (by simp)
    · rw [Option.some.injEq] at h
      subst h
      exact ⟨ifUnknown_ne_nil _, ifUnknown_ne_nil _⟩
  · intro t e h
    simp only [parseEducationEntry] at h
    split at h
    · exact absurd h (by simp)
    · rw [Option.some.injEq] at h
      subst h
      exact ifUnknown_ne_nil _
  · intro t h
    simp only [extractExperience, h]
  · intro t h
    simp only [extractSkills, h]
  · intro t h
    simp only [extractEducation, h]
  · intro t h
    simp only [extractSummary, h]
  · intro enum r j
    simp only [analyzeMatch, generateRecommendations]
    split_ifs <;> simp

/-- C9 witness: a well-formed three-line header entry parses to a record
with non-empty title and company, and the dates-only education entry
carries the non-empty sentinel institution. -/
theorem C9_witness :
    parseExperienceEntry ("Dev Lead\nAcme\n2020".data) = some c9ExpEntry ∧
      (c9ExpEntry.title ≠ [] ∧ c9ExpEntry.company ≠ []) ∧
      c9EduEntry.institution ≠ [] ∧ extractExperience [] = [] :=
  ⟨by decide,
    C9_total_with_defaults.1 ("Dev Lead\nAcme\n2020".data) c9ExpEntry (by decide),
    C9_total_with_defaults.2.1 ("2020".data) c9EduEntry (by decide),
    C9_total_with_defaults.2.2.1 [] (by decide)⟩

/-- C10: in `_split_education_entries` a blank line also terminates the
current entry: two non-blank single-line entries separated only by a blank
line are segmented into two blocks (each the stripped line), and each block
then parses to an `EducationEntry` record, giving exactly two records. -/
theorem C10_blank_line_flush (s1 s2 : Str) (h1 : '\n' ∉ s1) (h2 : '\n' ∉ s2)
    (h3 : pyStrip s1 ≠ []) (h4 : pyStrip s2 ≠ []) :
    splitEducationEntries (s1 ++ '\n' :: '\n' :: s2) =
        [pyStrip s1, pyStrip s2] ∧
      ((splitEducationEntries (s1 ++ '\n' :: '\n' :: s2)).filterMap
          parseEducationEntry).length = 2 := by
  have hs : splitOnChar '\n' (s1 ++ '\n' :: ('\n' :: s2)) =
      s1 :: splitOnChar '\n' ('\n' :: s2) := splitOnChar_append '\n' _ h1
  have hs2 : splitOnChar '\n' ('\n' :: s2) = [] :: splitOnChar '\n' s2 := by
    simp [splitOnChar]
  have hs3 : splitOnChar '\n' s2 = [s2] := splitOnChar_of_not_mem '\n' h2
  have hlines : splitOnNl (s1 ++ '\n' :: '\n' :: s2) = [s1, [], s2] := by
    rw [splitOnNl, hs, hs2, hs3]
  have hnil : pyStrip ([] : Str) = [] := rfl
  have heval : splitEducationEntries (s1 ++ '\n' :: '\n' :: s2) =
      [pyStrip s1, pyStrip s2] := by
    rw [splitEducationEntries, hlines]
    simp [eduLoop, h3, h4, hnil, joinNl]
  refine ⟨heval, ?_⟩
  rw [heval]
  obtain ⟨c1, hc1, hcs1⟩ := exists_nonspace_of_pyStrip_ne_nil h3
  obtain ⟨c2, hc2, hcs2⟩ := exists_nonspace_of_pyStrip_ne_nil h4
  obtain ⟨r1, hr1⟩ := Option.isSome_iff_exists.mp
    (parseEducationEntry_isSome ⟨c1, mem_pyStrip hc1 hcs1, hcs1⟩)
  obtain ⟨r2, hr2⟩ := Option.isSome_iff_exists.mp
    (parseEducationEntry_isSome ⟨c2, mem_pyStrip hc2 hcs2, hcs2⟩)
  simp [List.filterMap_cons, hr1, hr2]

/-- C10 witness: `MIT 2010` and `Harvard 2015`, separated by one blank
line, give two education records. -/
theorem C10_witness :
    (pyStrip ("MIT 2010".data) ≠ [] ∧ pyStrip ("Harvard 2015".data) ≠ []) ∧
      splitEducationEntries
          (("MIT 2010".data) ++ '\n' :: '\n' :: ("Harvard 2015".data)) =
        [pyStrip ("MIT 2010".data), pyStrip ("Harvard 2015".data)] ∧
      ((splitEducationEntries
          (("MIT 2010".data) ++ '\n' :: '\n' :: ("Harvard 2015".data))).filterMap
          parseEducationEntry).length = 2 :=
  ⟨⟨by decide, by decide⟩,
    (C10_blank_line_flush ("MIT 2010".data) ("Harvard 2015".data)
      (by decide) (by decide) (by decide) (by decide)).1,
    (C10_blank_line_flush ("MIT 2010".data) ("Harvard 2015".data)
      (by decide) (by decide) (by decide) (by decide)).2⟩
